import Mathlib

/-!
Shallow embedding of the filinfo auth server (`src/server.js`): the code
normalization function `normalizeCode`, the `POST /api/auth` handler
(token path and code path) and the `POST /api/admin/reset-code` handler,
together with the binding store they read and write.

JavaScript request fields are modelled by `JSVal` so that truthiness
(`!fingerprint`) and `typeof x !== "string"` checks are represented
faithfully. The binding store (a JSON object keyed by binding id, iterated
in insertion order by `Object.keys` / `Object.values`) is modelled as a
`List Binding` in insertion order. Fresh `uuidv4()` results and
`new Date().toISOString()` are passed in as explicit arguments.
-/

namespace FilInfo

/-- Model of the JavaScript values a JSON request field can hold:
absent (`undefined`), `null`, a string, a number, or a boolean. -/
inductive JSVal where
  | undef
  | nullv
  | str (s : String)
  | num (n : Int)
  | boolv (b : Bool)
deriving DecidableEq

/-- JavaScript truthiness of a `JSVal`: `undefined`, `null`, `""`, `0`
and `false` are falsy, everything else is truthy. -/
def truthy : JSVal → Bool
  | .undef => false
  | .nullv => false
  | .str s => s != ""
  | .num n => n != 0
  | .boolv b => b

/-- Model of `typeof v === "string"`. -/
def isString : JSVal → Bool
  | .str _ => true
  | _ => false

/-- Extract the string from a `JSVal` known to be a string (used only
after an `isString` guard in the handler). -/
def asString : JSVal → String
  | .str s => s
  | _ => ""

/-- Model of JavaScript `String(v)` / `v.toString()`. -/
def jsToString : JSVal → String
  | .undef => "undefined"
  | .nullv => "null"
  | .str s => s
  | .num n => toString n
  | .boolv b => if b then "true" else "false"

/-- Model of JavaScript `v || d` (used as `(c || "")` in `normalizeCode`). -/
def jsOr (v d : JSVal) : JSVal :=
  if truthy v then v else d

/-! ### Character-level model of the normalization pipeline

`normalizeCode` in the source is
`(c || "").toString().normalize("NFKC").replace(/\s+/g, "").toUpperCase()`.
The three library calls are modelled per code point:

* `isJsWhitespace` is the character class `\s` of JavaScript regular
  expressions (ECMA-262 WhiteSpace ∪ LineTerminator).
* `nfkcChar` models the NFKC `String.prototype.normalize` call on a
  representative fragment of Unicode: the fullwidth ASCII block
  U+FF01–U+FF5E folds to ASCII U+0021–U+007E, and the compatibility
  space characters (U+00A0, U+2000–U+200A, U+202F, U+205F, U+3000) fold
  to U+0020; every other code point is left unchanged (canonical
  composition and reordering of combining sequences are outside the
  modelled fragment).
* `toUpperChar` models `String.prototype.toUpperCase` on the same
  fragment: ASCII a–z and fullwidth a–z (U+FF41–U+FF5A) map up by 0x20;
  other code points are unchanged.
-/

/-- Code points matched by the JavaScript regexp class `\s` outside the
contiguous range U+2000–U+200A. -/
def wsCodes : List Nat :=
  [0x9, 0xA, 0xB, 0xC, 0xD, 0x20, 0xA0, 0x1680,
   0x2028, 0x2029, 0x202F, 0x205F, 0x3000, 0xFEFF]

/-- Membership in the JavaScript regexp class `\s`. -/
def isJsWhitespace (c : Char) : Bool :=
  decide (c.toNat ∈ wsCodes) ||
  (decide (0x2000 ≤ c.toNat) && decide (c.toNat ≤ 0x200A))

/-- Per-code-point model of NFKC normalization (see the section comment
for the modelled fragment). -/
def nfkcChar (c : Char) : List Char :=
  if 0xFF01 ≤ c.toNat ∧ c.toNat ≤ 0xFF5E then
    [Char.ofNat (c.toNat - 0xFF01 + 0x21)]
  else if c.toNat = 0xA0 ∨ (0x2000 ≤ c.toNat ∧ c.toNat ≤ 0x200A) ∨
          c.toNat = 0x202F ∨ c.toNat = 0x205F ∨ c.toNat = 0x3000 then
    [' ']
  else [c]

/-- Per-code-point model of `toUpperCase` (ASCII and fullwidth letters). -/
def toUpperChar (c : Char) : Char :=
  if 0x61 ≤ c.toNat ∧ c.toNat ≤ 0x7A then Char.ofNat (c.toNat - 0x20)
  else if 0xFF41 ≤ c.toNat ∧ c.toNat ≤ 0xFF5A then Char.ofNat (c.toNat - 0x20)
  else c

/-- NFKC normalization of a character list. -/
def nfkcList (l : List Char) : List Char :=
  l.flatMap nfkcChar

/-- Model of `s.normalize("NFKC")`. -/
def nfkcStr (s : String) : String :=
  String.mk (nfkcList s.data)

/-- Whitespace removal on a character list. -/
def stripWsList (l : List Char) : List Char :=
  l.filter (fun c => !isJsWhitespace c)

/-- Model of `s.replace(/\s+/g, "")`: removes every `\s` character. -/
def stripWs (s : String) : String :=
  String.mk (stripWsList s.data)

/-- Uppercasing of a character list. -/
def upperList (l : List Char) : List Char :=
  l.map toUpperChar

/-- Model of `s.toUpperCase()`. -/
def upperStr (s : String) : String :=
  String.mk (upperList s.data)

/-- Normalization of a string already known to be a string:
NFKC, then whitespace removal, then uppercasing. -/
def normalizeCodeS (s : String) : String :=
  upperStr (stripWs (nfkcStr s))

/-- Model of `normalizeCode(c)` from `src/server.js` lines 49–55:
`(c || "").toString().normalize("NFKC").replace(/\s+/g, "").toUpperCase()`. -/
def normalizeCode (v : JSVal) : String :=
  normalizeCodeS (jsToString (jsOr v (.str "")))

/-! ### The binding store and the request handlers -/

/-- A binding record, as created by the first-time code redemption branch:
`{ id, code, fingerprint, token, createdAt }` (`src/server.js` line 114). -/
structure Binding where
  id : String
  code : String
  fingerprint : String
  token : String
  createdAt : String
deriving DecidableEq

/-- Outcome of `POST /api/auth`, one constructor per `return` of the
handler (`src/server.js` lines 77–133). -/
inductive AuthResult where
  /-- 400 `{ ok: false, error: "Missing fingerprint" }` -/
  | missingFingerprint
  /-- 401 `{ ok: false, error: "Invalid token" }` -/
  | invalidToken
  /-- 403 `{ ok: false, error: "Token does not match this device" }` -/
  | deviceMismatch
  /-- 200 `{ ok: true, mode: "token" }` -/
  | tokenMode
  /-- 400 `{ ok: false, error: "Missing code" }` -/
  | missingCode
  /-- 401 `{ ok: false, error: "Bad code" }` -/
  | badCode
  /-- 200 `{ ok: true, mode: "bound-first-time", token }` -/
  | boundFirstTime (token : String)
  /-- 200 `{ ok: true, mode: "same-device", token }` -/
  | sameDevice (token : String)
  /-- 403 `{ ok: false, error: "Ce code a déjà été utilisé sur un autre appareil." }` -/
  | codeAlreadyUsed
deriving DecidableEq

/-- Model of `b.token === token` for a request-supplied `token : JSVal`
against a stored string token: strict equality, so a non-string request
value never equals a stored string. -/
def strictEqStr (v : JSVal) (s : String) : Bool :=
  match v with
  | .str u => s == u
  | _ => false

/-- Model of the `POST /api/auth` handler (`src/server.js` lines 77–133).
Arguments: the registry contents (`loadCodes()` as a list of strings), the
binding store (`loadBindings()` in insertion order), the three request
fields, and the two `uuidv4()` results and the `createdAt` timestamp used
if a new binding is created. Returns the response outcome and the binding
store after the request (the store that `saveBindings` persists, or the
unchanged input store when the handler does not write). -/
def authorize (codes : List String) (bindings : List Binding)
    (token fingerprint code : JSVal) (freshId freshToken now : String) :
    AuthResult × List Binding :=
  if !(truthy fingerprint && isString fingerprint) then
    (.missingFingerprint, bindings)
  else if truthy token then
    match bindings.find? (fun b => strictEqStr token b.token) with
    | none => (.invalidToken, bindings)
    | some b =>
      if b.fingerprint != asString fingerprint then (.deviceMismatch, bindings)
      else (.tokenMode, bindings)
  else if !(truthy code && isString code) then
    (.missingCode, bindings)
  else if !((codes.map normalizeCodeS).contains (normalizeCodeS (asString code))) then
    (.badCode, bindings)
  else
    match bindings.find? (fun b =>
        normalizeCodeS b.code == normalizeCodeS (asString code)) with
    | none =>
      (.boundFirstTime freshToken,
       bindings ++ [⟨freshId, asString code, asString fingerprint, freshToken, now⟩])
    | some b =>
      if b.fingerprint == asString fingerprint then (.sameDevice b.token, bindings)
      else (.codeAlreadyUsed, bindings)

/-- A JSON value appearing in a response body field. -/
inductive JsonVal where
  | jbool (b : Bool)
  | jstr (s : String)
  | jnum (n : Int)
deriving DecidableEq

/-- An HTTP response: status code and JSON object body as a key-value list. -/
abbrev HttpResponse := Nat × List (String × JsonVal)

/-- Model of the `POST /api/admin/reset-code` handler (`src/server.js`
lines 139–153): reject a falsy `code` with 400, otherwise delete every
binding whose normalized code equals the normalized request code; answer
200 `{ ok: true }` if at least one was deleted (and persist), else
404 `{ ok: false, error: "Code not found" }`. Returns the response and
the resulting binding store. -/
def resetCode (bindings : List Binding) (code : JSVal) :
    HttpResponse × List Binding :=
  if !(truthy code) then
    ((400, [("ok", .jbool false), ("error", .jstr "Missing code")]), bindings)
  else if bindings.any (fun b => normalizeCodeS b.code == normalizeCode code) then
    ((200, [("ok", .jbool true)]),
     bindings.filter (fun b => !(normalizeCodeS b.code == normalizeCode code)))
  else
    ((404, [("ok", .jbool false), ("error", .jstr "Code not found")]), bindings)

/-- Model of `loadBindings()` (`src/server.js` lines 34–43): the outcome of
reading and parsing the bindings file. `none` models a thrown exception
(unreadable file or JSON parse failure, caught by the `try`/`catch` which
returns `{}`); `some none` models a successful parse yielding JSON `null`
(turned into `{}` by `JSON.parse(raw) || {}`); `some (some s)` a
successful parse of a bindings object. -/
def loadBindings (raw : Option (Option (List Binding))) : List Binding :=
  match raw with
  | none => []
  | some none => []
  | some (some s) => s

/-- One sequentially executed mutating operation against the store:
a `POST /api/auth` request or a `POST /api/admin/reset-code` request. -/
inductive Op where
  | auth (token fingerprint code : JSVal) (freshId freshToken now : String)
  | reset (code : JSVal)

/-- The binding store after executing one operation. -/
def applyOp (codes : List String) (bs : List Binding) : Op → List Binding
  | .auth t f c i k n => (authorize codes bs t f c i k n).2
  | .reset c => (resetCode bs c).2

/-- The binding store after executing a sequence of operations starting
from the empty store. -/
def runOps (codes : List String) (ops : List Op) : List Binding :=
  ops.foldl (applyOp codes) []

/-- The at-most-one-binding-per-normalized-code invariant: no two bindings
in the store have equal normalized `code` fields. -/
def NoDupNorm (bs : List Binding) : Prop :=
  bs.Pairwise (fun a b => normalizeCodeS a.code ≠ normalizeCodeS b.code)

/-! ### Character-level lemmas about the normalization pipeline -/

theorem toNat_ofNat_valid {n : Nat} (h : n.isValidChar) :
    (Char.ofNat n).toNat = n := by
  rw [Char.ofNat, dif_pos h]
  rfl

theorem isJsWhitespace_iff {c : Char} :
    isJsWhitespace c = true ↔
      (c.toNat = 0x9 ∨ c.toNat = 0xA ∨ c.toNat = 0xB ∨ c.toNat = 0xC ∨
       c.toNat = 0xD ∨ c.toNat = 0x20 ∨ c.toNat = 0xA0 ∨ c.toNat = 0x1680 ∨
       (0x2000 ≤ c.toNat ∧ c.toNat ≤ 0x200A) ∨ c.toNat = 0x2028 ∨
       c.toNat = 0x2029 ∨ c.toNat = 0x202F ∨ c.toNat = 0x205F ∨
       c.toNat = 0x3000 ∨ c.toNat = 0xFEFF) := by
  simp only [isJsWhitespace, wsCodes, List.mem_cons, List.not_mem_nil, or_false,
    Bool.or_eq_true, Bool.and_eq_true, decide_eq_true_eq]
  tauto

theorem toUpperChar_of_lower {c : Char} (h : 0x61 ≤ c.toNat ∧ c.toNat ≤ 0x7A) :
    toUpperChar c = Char.ofNat (c.toNat - 0x20) := by
  unfold toUpperChar
  rw [if_pos h]

theorem toUpperChar_of_fwlower {c : Char}
    (h : 0xFF41 ≤ c.toNat ∧ c.toNat ≤ 0xFF5A) :
    toUpperChar c = Char.ofNat (c.toNat - 0x20) := by
  unfold toUpperChar
  rw [if_neg (by omega), if_pos h]

theorem toUpperChar_of_other {c : Char}
    (h1 : ¬(0x61 ≤ c.toNat ∧ c.toNat ≤ 0x7A))
    (h2 : ¬(0xFF41 ≤ c.toNat ∧ c.toNat ≤ 0xFF5A)) :
    toUpperChar c = c := by
  unfold toUpperChar
  rw [if_neg h1, if_neg h2]

theorem nfkcChar_of_fullwidth {c : Char}
    (h : 0xFF01 ≤ c.toNat ∧ c.toNat ≤ 0xFF5E) :
    nfkcChar c = [Char.ofNat (c.toNat - 0xFF01 + 0x21)] := by
  unfold nfkcChar
  rw [if_pos h]

theorem nfkcChar_of_wsmap {c : Char}
    (h : c.toNat = 0xA0 ∨ (0x2000 ≤ c.toNat ∧ c.toNat ≤ 0x200A) ∨
         c.toNat = 0x202F ∨ c.toNat = 0x205F ∨ c.toNat = 0x3000) :
    nfkcChar c = [' '] := by
  unfold nfkcChar
  rw [if_neg (by omega), if_pos h]

theorem nfkcChar_of_other {c : Char}
    (h1 : ¬(0xFF01 ≤ c.toNat ∧ c.toNat ≤ 0xFF5E))
    (h2 : ¬(c.toNat = 0xA0 ∨ (0x2000 ≤ c.toNat ∧ c.toNat ≤ 0x200A) ∨
            c.toNat = 0x202F ∨ c.toNat = 0x205F ∨ c.toNat = 0x3000)) :
    nfkcChar c = [c] := by
  unfold nfkcChar
  rw [if_neg h1, if_neg h2]

/-- Uppercasing a character does not change whether it is whitespace. -/
theorem isJsWhitespace_toUpperChar (c : Char) :
    isJsWhitespace (toUpperChar c) = isJsWhitespace c := by
  by_cases h1 : 0x61 ≤ c.toNat ∧ c.toNat ≤ 0x7A
  · rw [toUpperChar_of_lower h1]
    have ht : (Char.ofNat (c.toNat - 0x20)).toNat = c.toNat - 0x20 :=
      toNat_ofNat_valid (Or.inl (by omega))
    have l : isJsWhitespace (Char.ofNat (c.toNat - 0x20)) = false := by
      rw [Bool.eq_false_iff]
      intro hw
      have := isJsWhitespace_iff.mp hw
      rw [ht] at this
      omega
    have r : isJsWhitespace c = false := by
      rw [Bool.eq_false_iff]
      intro hw
      have := isJsWhitespace_iff.mp hw
      omega
    rw [l, r]
  · by_cases h2 : 0xFF41 ≤ c.toNat ∧ c.toNat ≤ 0xFF5A
    · rw [toUpperChar_of_fwlower h2]
      have ht : (Char.ofNat (c.toNat - 0x20)).toNat = c.toNat - 0x20 :=
        toNat_ofNat_valid (Or.inr ⟨by omega, by omega⟩)
      have l : isJsWhitespace (Char.ofNat (c.toNat - 0x20)) = false := by
        rw [Bool.eq_false_iff]
        intro hw
        have := isJsWhitespace_iff.mp hw
        rw [ht] at this
        omega
      have r : isJsWhitespace c = false := by
        rw [Bool.eq_false_iff]
        intro hw
        have := isJsWhitespace_iff.mp hw
        omega
      rw [l, r]
    · rw [toUpperChar_of_other h1 h2]

/-- NFKC commutes with uppercasing, per character. -/
theorem nfkcChar_toUpperChar (c : Char) :
    nfkcChar (toUpperChar c) = (nfkcChar c).map toUpperChar := by
  by_cases h1 : 0x61 ≤ c.toNat ∧ c.toNat ≤ 0x7A
  · have ht : (Char.ofNat (c.toNat - 0x20)).toNat = c.toNat - 0x20 :=
      toNat_ofNat_valid (Or.inl (by omega))
    rw [toUpperChar_of_lower h1, nfkcChar_of_other (by omega) (by omega),
      nfkcChar_of_other (by omega) (by omega), List.map_singleton,
      toUpperChar_of_lower h1]
  · by_cases h2 : 0xFF41 ≤ c.toNat ∧ c.toNat ≤ 0xFF5A
    · have ht : (Char.ofNat (c.toNat - 0x20)).toNat = c.toNat - 0x20 :=
        toNat_ofNat_valid (Or.inr ⟨by omega, by omega⟩)
      have ht2 : (Char.ofNat (c.toNat - 0xFF01 + 0x21)).toNat =
          c.toNat - 0xFF01 + 0x21 :=
        toNat_ofNat_valid (Or.inl (by omega))
      rw [toUpperChar_of_fwlower h2, nfkcChar_of_fullwidth (by omega),
        nfkcChar_of_fullwidth (by omega), List.map_singleton,
        toUpperChar_of_lower (by omega), ht, ht2]
      exact congrArg (fun m => [Char.ofNat m]) (by omega)
    · by_cases h3 : 0xFF01 ≤ c.toNat ∧ c.toNat ≤ 0xFF5E
      · have ht2 : (Char.ofNat (c.toNat - 0xFF01 + 0x21)).toNat =
            c.toNat - 0xFF01 + 0x21 :=
          toNat_ofNat_valid (Or.inl (by omega))
        rw [toUpperChar_of_other h1 h2, nfkcChar_of_fullwidth h3,
          List.map_singleton, toUpperChar_of_other (by omega) (by omega)]
      · by_cases h4 : c.toNat = 0xA0 ∨ (0x2000 ≤ c.toNat ∧ c.toNat ≤ 0x200A) ∨
            c.toNat = 0x202F ∨ c.toNat = 0x205F ∨ c.toNat = 0x3000
        · rw [toUpperChar_of_other h1 h2, nfkcChar_of_wsmap h4,
            List.map_singleton, toUpperChar_of_other (by decide) (by decide)]
        · rw [toUpperChar_of_other h1 h2, nfkcChar_of_other h3 h4,
            List.map_singleton, toUpperChar_of_other h1 h2]

/-- Stripping whitespace from the NFKC image of a character: the whole
image disappears when the character was whitespace and survives intact
otherwise. -/
theorem stripWsList_nfkcChar (c : Char) :
    (nfkcChar c).filter (fun d => !isJsWhitespace d) =
      if isJsWhitespace c = true then [] else nfkcChar c := by
  by_cases h3 : 0xFF01 ≤ c.toNat ∧ c.toNat ≤ 0xFF5E
  · have ht2 : (Char.ofNat (c.toNat - 0xFF01 + 0x21)).toNat =
        c.toNat - 0xFF01 + 0x21 :=
      toNat_ofNat_valid (Or.inl (by omega))
    have hcw : isJsWhitespace c = false := by
      rw [Bool.eq_false_iff]
      intro hw
      have := isJsWhitespace_iff.mp hw
      omega
    have hdw : isJsWhitespace (Char.ofNat (c.toNat - 0xFF01 + 0x21)) = false := by
      rw [Bool.eq_false_iff]
      intro hw
      have := isJsWhitespace_iff.mp hw
      rw [ht2] at this
      omega
    rw [nfkcChar_of_fullwidth h3, hcw]
    simp [hdw]
  · by_cases h4 : c.toNat = 0xA0 ∨ (0x2000 ≤ c.toNat ∧ c.toNat ≤ 0x200A) ∨
        c.toNat = 0x202F ∨ c.toNat = 0x205F ∨ c.toNat = 0x3000
    · have hcw : isJsWhitespace c = true := isJsWhitespace_iff.mpr (by omega)
      rw [nfkcChar_of_wsmap h4, hcw]
      decide
    · rw [nfkcChar_of_other h3 h4]
      by_cases hw : isJsWhitespace c = true
      · simp [hw]
      · simp [Bool.eq_false_iff.mpr hw]

/-! ### List- and string-level normalization lemmas -/

theorem nfkcList_cons (c : Char) (t : List Char) :
    nfkcList (c :: t) = nfkcChar c ++ nfkcList t := by
  simp [nfkcList]

theorem stripWsList_append (l1 l2 : List Char) :
    stripWsList (l1 ++ l2) = stripWsList l1 ++ stripWsList l2 := by
  simp [stripWsList, List.filter_append]

theorem upperList_append (l1 l2 : List Char) :
    upperList (l1 ++ l2) = upperList l1 ++ upperList l2 := by
  simp [upperList]

/-- Whitespace stripping commutes with NFKC. -/
theorem stripWsList_nfkcList (l : List Char) :
    stripWsList (nfkcList l) = nfkcList (stripWsList l) := by
  induction l with
  | nil => rfl
  | cons c t ih =>
    rw [nfkcList_cons, stripWsList_append]
    have hc : stripWsList (nfkcChar c) =
        if isJsWhitespace c = true then [] else nfkcChar c :=
      stripWsList_nfkcChar c
    by_cases h : isJsWhitespace c = true
    · rw [hc, if_pos h, ih]
      have : stripWsList (c :: t) = stripWsList t := by
        simp [stripWsList, List.filter_cons, h]
      rw [this, List.nil_append]
    · rw [hc, if_neg h, ih]
      have : stripWsList (c :: t) = c :: stripWsList t := by
        simp [stripWsList, List.filter_cons, Bool.eq_false_iff.mpr h]
      rw [this, nfkcList_cons]

/-- Uppercasing commutes with NFKC. -/
theorem upperList_nfkcList (l : List Char) :
    upperList (nfkcList l) = nfkcList (upperList l) := by
  induction l with
  | nil => rfl
  | cons c t ih =>
    rw [nfkcList_cons, upperList_append, ih]
    have h1 : upperList (c :: t) = toUpperChar c :: upperList t := by
      simp [upperList]
    rw [h1, nfkcList_cons]
    have h2 : upperList (nfkcChar c) = nfkcChar (toUpperChar c) :=
      (nfkcChar_toUpperChar c).symm
    rw [h2]

/-- Whitespace stripping commutes with uppercasing. -/
theorem stripWsList_upperList (l : List Char) :
    stripWsList (upperList l) = upperList (stripWsList l) := by
  unfold stripWsList upperList
  rw [List.filter_map]
  have h : l.filter ((fun c => !isJsWhitespace c) ∘ toUpperChar) =
      l.filter (fun c => !isJsWhitespace c) := by
    apply List.filter_congr
    intro a _
    simp [isJsWhitespace_toUpperChar]
  rw [h]

/-- Normalization written with the uppercasing pushed innermost: the
result depends on the input only through its uppercased form. -/
theorem normalizeCodeS_via_upper (s : String) :
    normalizeCodeS s = String.mk (stripWsList (nfkcList (upperList s.data))) := by
  show String.mk (upperList (stripWsList (nfkcList s.data))) = _
  rw [← stripWsList_upperList, upperList_nfkcList]

/-- Normalization written with the whitespace stripping pushed innermost:
the result depends on the input only through its whitespace-free form. -/
theorem normalizeCodeS_via_strip (s : String) :
    normalizeCodeS s = String.mk (upperList (nfkcList (stripWsList s.data))) := by
  show String.mk (upperList (stripWsList (nfkcList s.data))) = _
  rw [stripWsList_nfkcList]

/-! ### Evaluation lemmas for the request handlers -/

/-- Normalizing a request field that holds the string `s` agrees with the
plain string normalization (the `(c || "")` guard is the identity on
strings: it only replaces the falsy `""`, whose normalization is `""`). -/
theorem normalizeCode_str (s : String) :
    normalizeCode (.str s) = normalizeCodeS s := by
  unfold normalizeCode jsOr
  by_cases h : s = ""
  · subst h
    rfl
  · have : truthy (.str s) = true := by
      simp [truthy, h]
    rw [this]
    rfl

/-- A request whose `fingerprint` is not a truthy string is rejected with
`Missing fingerprint`, for every store, token and code. -/
theorem authorize_no_fingerprint (codes : List String) (bs : List Binding)
    (tok fp cod : JSVal) (i k n : String)
    (h : ¬(truthy fp = true ∧ isString fp = true)) :
    authorize codes bs tok fp cod i k n = (.missingFingerprint, bs) := by
  have hb : (truthy fp && isString fp) = false := by
    cases h1 : truthy fp
    · simp
    · cases h2 : isString fp
      · simp
      · exact absurd ⟨h1, h2⟩ h
  unfold authorize
  rw [hb]
  rfl

/-- Evaluation of the token path: with a truthy string token and a valid
fingerprint, the handler performs the lookup by token and nothing else. -/
theorem authorize_token_eval (codes : List String) (bs : List Binding)
    (t f : String) (cod : JSVal) (i k n : String) (ht : t ≠ "") (hf : f ≠ "") :
    authorize codes bs (.str t) (.str f) cod i k n =
      (match bs.find? (fun b => b.token == t) with
       | none => (.invalidToken, bs)
       | some b =>
         if b.fingerprint != f then (.deviceMismatch, bs)
         else (.tokenMode, bs)) := by
  have hfb : (truthy (.str f) && isString (.str f)) = true := by
    simp [truthy, isString, hf]
  have htb : truthy (.str t) = true := by
    simp [truthy, ht]
  unfold authorize
  rw [hfb, htb]
  rfl

/-- Evaluation of the code path: with no token, a valid fingerprint and a
truthy string code, the handler checks the registry and then branches on
the lookup by normalized code. -/
theorem authorize_code_eval (codes : List String) (bs : List Binding)
    (f c : String) (i k n : String) (hf : f ≠ "") (hc : c ≠ "") :
    authorize codes bs .undef (.str f) (.str c) i k n =
      (if !((codes.map normalizeCodeS).contains (normalizeCodeS c)) then
        (.badCode, bs)
       else
        match bs.find? (fun b => normalizeCodeS b.code == normalizeCodeS c) with
        | none =>
          (.boundFirstTime k, bs ++ [⟨i, c, f, k, n⟩])
        | some b =>
          if b.fingerprint == f then (.sameDevice b.token, bs)
          else (.codeAlreadyUsed, bs)) := by
  have hfb : (truthy (.str f) && isString (.str f)) = true := by
    simp [truthy, isString, hf]
  have hcb : (truthy (.str c) && isString (.str c)) = true := by
    simp [truthy, isString, hc]
  unfold authorize
  rw [hfb, hcb]
  rfl

/-- The store after a `POST /api/auth` request: unchanged, or extended
with exactly one fresh binding whose normalized code was not present. -/
theorem authorize_store_cases (codes : List String) (bs : List Binding)
    (tok fp cod : JSVal) (i k n : String) :
    (authorize codes bs tok fp cod i k n).2 = bs ∨
    ((authorize codes bs tok fp cod i k n).2 =
        bs ++ [⟨i, asString cod, asString fp, k, n⟩] ∧
      bs.find? (fun b => normalizeCodeS b.code ==
        normalizeCodeS (asString cod)) = none) := by
  unfold authorize
  split
  · exact Or.inl rfl
  · split
    · split
      · exact Or.inl rfl
      · split
        · exact Or.inl rfl
        · exact Or.inl rfl
    · split
      · exact Or.inl rfl
      · split
        · exact Or.inl rfl
        · rename_i hfind
          · split
            · rename_i hnone
              exact Or.inr ⟨rfl, hnone⟩
            · split
              · exact Or.inl rfl
              · exact Or.inl rfl

/-- A request with no token, a valid fingerprint and a missing or
non-string code is rejected with `Missing code`. -/
theorem authorize_missing_code (codes : List String) (bs : List Binding)
    (tok fp cod : JSVal) (i k n : String)
    (h0 : truthy tok = false)
    (h1 : truthy fp = true) (h2 : isString fp = true)
    (h3 : ¬(truthy cod = true ∧ isString cod = true)) :
    authorize codes bs tok fp cod i k n = (.missingCode, bs) := by
  have hfb : (truthy fp && isString fp) = true := by
    rw [h1, h2]
    rfl
  have hcb : (truthy cod && isString cod) = false := by
    cases hx : truthy cod
    · simp
    · cases hy : isString cod
      · simp
      · exact absurd ⟨hx, hy⟩ h3
  unfold authorize
  rw [hfb, h0, hcb]
  rfl

/-- A request whose token field is absent can only end in one of the
fingerprint/code-path outcomes, never the token-path failures. -/
theorem authorize_undef_token_results (codes : List String) (bs : List Binding)
    (fp cod : JSVal) (i k n : String) :
    (authorize codes bs .undef fp cod i k n).1 ≠ .invalidToken ∧
    (authorize codes bs .undef fp cod i k n).1 ≠ .deviceMismatch := by
  unfold authorize
  split
  · simp
  · split
    · rename_i ht
      exact absurd ht (by decide)
    · split
      · simp
      · split
        · simp
        · split
          · simp
          · split
            · simp
            · simp

/-! ### Claim theorems -/

/-- Claim C4: normalization equivalence. Two codes that differ only by
letter case (equal uppercased forms), only by whitespace characters
(equal after whitespace removal), or only by Unicode
compatibility-equivalent code-point representations (equal NFKC images in
the modelled fragment) have the same normalized form; `normalizeCode`
applies NFKC, then removes all whitespace, then uppercases; and empty or
absent input normalizes to the empty string. -/
theorem C4_normalization_equivalence (c1 c2 : String) :
    (upperStr c1 = upperStr c2 → normalizeCodeS c1 = normalizeCodeS c2) ∧
    (stripWs c1 = stripWs c2 → normalizeCodeS c1 = normalizeCodeS c2) ∧
    (nfkcStr c1 = nfkcStr c2 → normalizeCodeS c1 = normalizeCodeS c2) ∧
    (∀ s : String, normalizeCodeS s = upperStr (stripWs (nfkcStr s))) ∧
    normalizeCode .undef = "" ∧ normalizeCode (.str "") = "" := by
  refine ⟨?_, ?_, ?_, fun s => rfl, by decide, by decide⟩
  · intro h
    have h' : upperList c1.data = upperList c2.data := congrArg String.data h
    rw [normalizeCodeS_via_upper, normalizeCodeS_via_upper, h']
  · intro h
    have h' : stripWsList c1.data = stripWsList c2.data := congrArg String.data h
    rw [normalizeCodeS_via_strip, normalizeCodeS_via_strip, h']
  · intro h
    have h' : nfkcList c1.data = nfkcList c2.data := congrArg String.data h
    show String.mk (upperList (stripWsList (nfkcList c1.data))) = _
    rw [h']
    rfl

/-- Witness for C4 at concrete inputs: a case difference, a whitespace
difference, and a fullwidth/halfwidth NFKC difference. -/
theorem C4_normalization_equivalence_witness :
    normalizeCodeS "ab1" = normalizeCodeS "Ab1" ∧
    normalizeCodeS "a b1" = normalizeCodeS "ab1" ∧
    normalizeCodeS "ＡＢ１" = normalizeCodeS "AB1" :=
  ⟨(C4_normalization_equivalence "ab1" "Ab1").1 (by decide),
   (C4_normalization_equivalence "a b1" "ab1").2.1 (by decide),
   (C4_normalization_equivalence "ＡＢ１" "AB1").2.2.1 (by decide)⟩

/-- Claim C9: a request whose fingerprint field is the empty string (a
present, string-typed value) is rejected with the missing-fingerprint
validation error and the store is untouched, exactly as when the
fingerprint is absent. -/
theorem C9_empty_fingerprint_rejected (codes : List String) (bs : List Binding)
    (tok cod : JSVal) (i k n : String) :
    authorize codes bs tok (.str "") cod i k n = (.missingFingerprint, bs) ∧
    authorize codes bs tok .undef cod i k n = (.missingFingerprint, bs) := by
  constructor
  · exact authorize_no_fingerprint codes bs tok (.str "") cod i k n
      (by simp [truthy])
  · exact authorize_no_fingerprint codes bs tok .undef cod i k n
      (by simp [truthy])

/-- Claim C10: an empty-string token does not take the token path. The
request evaluates exactly as if the token were absent, so it can never
produce the invalid-token or device-mismatch outcome; with a valid
fingerprint and no truthy string code it fails with the missing-code
validation error. -/
theorem C10_empty_token_is_code_path (codes : List String) (bs : List Binding)
    (fp cod : JSVal) (i k n : String) :
    authorize codes bs (.str "") fp cod i k n =
      authorize codes bs .undef fp cod i k n ∧
    (authorize codes bs (.str "") fp cod i k n).1 ≠ .invalidToken ∧
    (authorize codes bs (.str "") fp cod i k n).1 ≠ .deviceMismatch ∧
    (truthy fp = true → isString fp = true →
      ¬(truthy cod = true ∧ isString cod = true) →
      authorize codes bs (.str "") fp cod i k n = (.missingCode, bs)) := by
  have he : authorize codes bs (.str "") fp cod i k n =
      authorize codes bs .undef fp cod i k n := rfl
  have hr := authorize_undef_token_results codes bs fp cod i k n
  refine ⟨he, ?_, ?_, ?_⟩
  · rw [he]
    exact hr.1
  · rw [he]
    exact hr.2
  · intro h1 h2 h3
    rw [he]
    exact authorize_missing_code codes bs .undef fp cod i k n rfl h1 h2 h3

/-- Witness for C10: an empty-string token together with no code fails
with the missing-code error (not invalid-token). -/
theorem C10_empty_token_is_code_path_witness :
    authorize [] [] (.str "") (.str "F1") (JSVal.undef) "i" "k" "n" =
      (.missingCode, []) :=
  (C10_empty_token_is_code_path [] [] (.str "F1") (JSVal.undef) "i" "k" "n").2.2.2
    (by decide) (by decide) (by decide)

/-- Claim C7: input validation. A missing or non-string fingerprint is
rejected with the missing-fingerprint validation error before any other
logic runs — the outcome is `(.missingFingerprint, bs)` for every store
contents `bs`, every token and every code, so no store read or token/code
logic can influence it. With a falsy token (absent token), a missing or
non-string code is rejected with the missing-code validation error. -/
theorem C7_input_validation (codes : List String) (bs : List Binding)
    (tok fp cod : JSVal) (i k n : String) :
    (¬(truthy fp = true ∧ isString fp = true) →
      authorize codes bs tok fp cod i k n = (.missingFingerprint, bs)) ∧
    (truthy tok = false → truthy fp = true → isString fp = true →
      ¬(truthy cod = true ∧ isString cod = true) →
      authorize codes bs tok fp cod i k n = (.missingCode, bs)) := by
  constructor
  · intro h
    exact authorize_no_fingerprint codes bs tok fp cod i k n h
  · intro h0 h1 h2 h3
    exact authorize_missing_code codes bs tok fp cod i k n h0 h1 h2 h3

/-- Witness for C7: a numeric (truthy, non-string) fingerprint is
rejected, and with a fingerprint present a numeric code is rejected as
missing. -/
theorem C7_input_validation_witness :
    authorize [] [] .undef (.num 5) (.str "ABC") "i" "k" "n" =
      (.missingFingerprint, []) ∧
    authorize [] [] .undef (.str "F1") (.num 7) "i" "k" "n" =
      (.missingCode, []) :=
  ⟨(C7_input_validation [] [] .undef (.num 5) (.str "ABC") "i" "k" "n").1
      (by decide),
   (C7_input_validation [] [] .undef (.str "F1") (.num 7) "i" "k" "n").2
      (by decide) (by decide) (by decide) (by decide)⟩

/-- Lookup characterization used for the token path: when exactly one
element satisfies the predicate, `find?` returns it. -/
theorem find?_eq_some_of_unique {α : Type} {p : α → Bool} {b : α} :
    ∀ {l : List α}, b ∈ l → p b = true → (∀ x ∈ l, p x = true → x = b) →
      l.find? p = some b := by
  intro l
  induction l with
  | nil =>
    intro h _ _
    cases h
  | cons a t ih =>
    intro hb hpb huniq
    by_cases ha : p a = true
    · have hab : a = b := huniq a (List.mem_cons_self a t) ha
      rw [List.find?_cons_of_pos t ha, hab]
    · rw [List.find?_cons_of_neg t ha]
      apply ih ?_ hpb ?_
      · rcases List.mem_cons.mp hb with h | h
        · rw [h] at hpb
          exact absurd hpb ha
        · exact h
      · intro x hx hpx
        exact huniq x (List.mem_cons_of_mem a hx) hpx

/-- Claim C3: the token path. For a request carrying a (truthy string)
token and a valid fingerprint: if no binding in the store has that token
the request fails with the invalid-token error; if the unique binding
with that token has a different fingerprint it fails with the
device-mismatch error; if the fingerprint matches it succeeds with mode
"token". In each case the store is unchanged, so a token authorizes only
its originating fingerprint. -/
theorem C3_token_path (codes : List String) (bs : List Binding)
    (t f : String) (cod : JSVal) (i k n : String)
    (ht : t ≠ "") (hf : f ≠ "") :
    ((∀ b ∈ bs, b.token ≠ t) →
      authorize codes bs (.str t) (.str f) cod i k n = (.invalidToken, bs)) ∧
    (∀ b, b ∈ bs → b.token = t → (∀ x ∈ bs, x.token = t → x = b) →
      (b.fingerprint ≠ f →
        authorize codes bs (.str t) (.str f) cod i k n = (.deviceMismatch, bs)) ∧
      (b.fingerprint = f →
        authorize codes bs (.str t) (.str f) cod i k n = (.tokenMode, bs))) := by
  constructor
  · intro hnone
    rw [authorize_token_eval codes bs t f cod i k n ht hf]
    have hfind : bs.find? (fun b => b.token == t) = none :=
      List.find?_eq_none.mpr (fun x hx => by simp [hnone x hx])
    rw [hfind]
  · intro b hb hbt huniq
    have hfind : bs.find? (fun b => b.token == t) = some b :=
      find?_eq_some_of_unique hb (by simp [hbt])
        (fun x hx hpx => huniq x hx (by simpa using hpx))
    constructor
    · intro hne
      rw [authorize_token_eval codes bs t f cod i k n ht hf, hfind]
      have hbne : (b.fingerprint != f) = true := by
        simp [hne]
      simp [hbne]
    · intro heq
      rw [authorize_token_eval codes bs t f cod i k n ht hf, hfind]
      have hbne : (b.fingerprint != f) = false := by
        simp [heq]
      simp [hbne]

/-- Witness for C3: a stored binding's token authorizes its own
fingerprint with mode "token", is refused for a different fingerprint,
and an unknown token is invalid. -/
theorem C3_token_path_witness :
    authorize ["C"] [⟨"id1", "C", "F1", "tok1", "t0"⟩]
        (.str "tok1") (.str "F1") (JSVal.undef) "i" "k" "n" =
      (.tokenMode, [⟨"id1", "C", "F1", "tok1", "t0"⟩]) ∧
    authorize ["C"] [⟨"id1", "C", "F1", "tok1", "t0"⟩]
        (.str "tok1") (.str "F2") (JSVal.undef) "i" "k" "n" =
      (.deviceMismatch, [⟨"id1", "C", "F1", "tok1", "t0"⟩]) ∧
    authorize ["C"] [⟨"id1", "C", "F1", "tok1", "t0"⟩]
        (.str "other") (.str "F1") (JSVal.undef) "i" "k" "n" =
      (.invalidToken, [⟨"id1", "C", "F1", "tok1", "t0"⟩]) :=
  ⟨((C3_token_path ["C"] [⟨"id1", "C", "F1", "tok1", "t0"⟩] "tok1" "F1" (JSVal.undef)
      "i" "k" "n" (by decide) (by decide)).2 ⟨"id1", "C", "F1", "tok1", "t0"⟩
      (by decide) (by decide) (by decide)).2 (by decide),
   ((C3_token_path ["C"] [⟨"id1", "C", "F1", "tok1", "t0"⟩] "tok1" "F2" (JSVal.undef)
      "i" "k" "n" (by decide) (by decide)).2 ⟨"id1", "C", "F1", "tok1", "t0"⟩
      (by decide) (by decide) (by decide)).1 (by decide),
   (C3_token_path ["C"] [⟨"id1", "C", "F1", "tok1", "t0"⟩] "other" "F1" (JSVal.undef)
      "i" "k" "n" (by decide) (by decide)).1 (by decide)⟩

/-- Claim C2: idempotence of redemption. For a code `c` valid in the
registry and a fingerprint `f`, starting from a store with no binding for
`normalize(c)`, the first tokenless submission of `{code: c, fingerprint:
f}` answers mode "bound-first-time" with the fresh token, and the second
answers mode "same-device" with that same token while leaving the store
exactly as after the first request (no mutation). -/
theorem C2_redemption_idempotent (codes : List String) (bs : List Binding)
    (c f i1 k1 n1 i2 k2 n2 : String)
    (hc : c ≠ "") (hf : f ≠ "")
    (hvalid : (codes.map normalizeCodeS).contains (normalizeCodeS c) = true)
    (hunbound : ∀ b ∈ bs, normalizeCodeS b.code ≠ normalizeCodeS c) :
    authorize codes bs .undef (.str f) (.str c) i1 k1 n1 =
      (.boundFirstTime k1, bs ++ [⟨i1, c, f, k1, n1⟩]) ∧
    authorize codes (bs ++ [⟨i1, c, f, k1, n1⟩]) .undef (.str f) (.str c)
        i2 k2 n2 =
      (.sameDevice k1, bs ++ [⟨i1, c, f, k1, n1⟩]) := by
  have hfind : bs.find? (fun b => normalizeCodeS b.code == normalizeCodeS c) =
      none :=
    List.find?_eq_none.mpr (fun x hx => by simp [hunbound x hx])
  constructor
  · rw [authorize_code_eval codes bs f c i1 k1 n1 hf hc, hvalid, hfind]
    rfl
  · have hfind2 : (bs ++ [Binding.mk i1 c f k1 n1]).find?
        (fun b => normalizeCodeS b.code == normalizeCodeS c) =
        some (Binding.mk i1 c f k1 n1) := by
      rw [List.find?_append, hfind, Option.none_or,
        List.find?_cons_of_pos [] (by simp)]
    rw [authorize_code_eval codes (bs ++ [Binding.mk i1 c f k1 n1]) f c
      i2 k2 n2 hf hc, hvalid, hfind2]
    simp

/-- Witness for C2: redeeming "abc 123" against registry `["ABC123"]`
twice from fingerprint "F1". -/
theorem C2_redemption_idempotent_witness :
    authorize ["ABC123"] [] .undef (.str "F1") (.str "abc 123")
        "i1" "k1" "n1" =
      (.boundFirstTime "k1", [⟨"i1", "abc 123", "F1", "k1", "n1"⟩]) ∧
    authorize ["ABC123"] [⟨"i1", "abc 123", "F1", "k1", "n1"⟩] (JSVal.undef)
        (.str "F1") (.str "abc 123") "i2" "k2" "n2" =
      (.sameDevice "k1", [⟨"i1", "abc 123", "F1", "k1", "n1"⟩]) := by
  have h := C2_redemption_idempotent ["ABC123"] [] "abc 123" "F1"
    "i1" "k1" "n1" "i2" "k2" "n2" (by decide) (by decide) (by decide)
    (by simp)
  exact ⟨h.1, h.2⟩

/-- An auth request preserves the at-most-one-binding-per-normalized-code
invariant: it either leaves the store alone or appends one binding whose
normalized code was absent. -/
theorem noDupNorm_authorize (codes : List String) (bs : List Binding)
    (tok fp cod : JSVal) (i k n : String) (h : NoDupNorm bs) :
    NoDupNorm (authorize codes bs tok fp cod i k n).2 := by
  rcases authorize_store_cases codes bs tok fp cod i k n with h1 | ⟨h2, hfind⟩
  · rw [h1]
    exact h
  · rw [h2]
    unfold NoDupNorm at h ⊢
    rw [List.pairwise_append]
    refine ⟨h, List.pairwise_singleton _ _, ?_⟩
    intro a ha b hb
    simp only [List.mem_singleton] at hb
    subst hb
    have hx := List.find?_eq_none.mp hfind a ha
    simpa using hx

/-- A reset never adds bindings: the resulting store is a sublist. -/
theorem resetCode_sublist (bs : List Binding) (c : JSVal) :
    (resetCode bs c).2.Sublist bs := by
  unfold resetCode
  split
  · exact List.Sublist.refl bs
  · split
    · exact List.filter_sublist bs
    · exact List.Sublist.refl bs

/-- Every operation preserves the invariant. -/
theorem noDupNorm_applyOp (codes : List String) (bs : List Binding) (op : Op)
    (h : NoDupNorm bs) : NoDupNorm (applyOp codes bs op) := by
  cases op with
  | auth t f c i k n => exact noDupNorm_authorize codes bs t f c i k n h
  | reset c => exact List.Pairwise.sublist (resetCode_sublist bs c) h

/-- Claim C1: at most one binding exists per normalized code at any time.
Starting from the empty binding store, after any sequence of sequentially
executed operations (authorize by token, authorize by code, or
administrative reset) no two bindings in the store have equal normalized
`code` fields. -/
theorem C1_at_most_one_binding_per_code (codes : List String) (ops : List Op) :
    NoDupNorm (runOps codes ops) := by
  suffices h : ∀ bs, NoDupNorm bs → NoDupNorm (ops.foldl (applyOp codes) bs) by
    exact h [] List.Pairwise.nil
  induction ops with
  | nil =>
    intro bs h
    exact h
  | cons op t ih =>
    intro bs h
    exact ih _ (noDupNorm_applyOp codes bs op h)

/-- An auth request never removes a binding: any normalized code bound
before the request is still bound after it. -/
theorem authorize_keeps_bound (codes : List String) (bs : List Binding)
    (tok fp cod : JSVal) (i k n : String) (m : String)
    (hb : ∃ b ∈ bs, normalizeCodeS b.code = m) :
    ∃ b ∈ (authorize codes bs tok fp cod i k n).2,
      normalizeCodeS b.code = m := by
  rcases authorize_store_cases codes bs tok fp cod i k n with h1 | ⟨h2, _⟩
  · rw [h1]
    exact hb
  · rw [h2]
    rcases hb with ⟨b, hbm, hbe⟩
    exact ⟨b, List.mem_append_left _ hbm, hbe⟩

/-- Claim C5: reset clears state. If some binding for `normalize(c)` is in
the store and a reset is submitted with any truthy value `cr` of the same
normalized form, the reset succeeds (200 `{ok: true}`), and a subsequent
tokenless redemption of any registry-valid variant `c2` with the same
normalized form succeeds from any fingerprint with mode
"bound-first-time". Moreover reset is the only operation that unbinds: an
auth request never removes a bound normalized code. -/
theorem C5_reset_round_trip (codes : List String) (bs : List Binding)
    (c : String) (cr : JSVal) (c2 f : String) (i k n : String)
    (hbound : ∃ b ∈ bs, normalizeCodeS b.code = normalizeCodeS c)
    (hcr : truthy cr = true) (hnr : normalizeCode cr = normalizeCodeS c)
    (hc2 : c2 ≠ "") (hn2 : normalizeCodeS c2 = normalizeCodeS c) (hf : f ≠ "")
    (hvalid : (codes.map normalizeCodeS).contains (normalizeCodeS c2) = true) :
    (resetCode bs cr).1 = (200, [("ok", .jbool true)]) ∧
    authorize codes (resetCode bs cr).2 .undef (.str f) (.str c2) i k n =
      (.boundFirstTime k, (resetCode bs cr).2 ++ [⟨i, c2, f, k, n⟩]) ∧
    (∀ (tok fp cod : JSVal) (i2 k2 n2 m : String),
      (∃ b ∈ bs, normalizeCodeS b.code = m) →
      ∃ b ∈ (authorize codes bs tok fp cod i2 k2 n2).2,
        normalizeCodeS b.code = m) := by
  have hany : bs.any (fun b => normalizeCodeS b.code == normalizeCode cr) =
      true := by
    rcases hbound with ⟨b, hbm, hbe⟩
    exact List.any_eq_true.mpr ⟨b, hbm, by simp [hnr, hbe]⟩
  have hreset : resetCode bs cr = ((200, [("ok", .jbool true)]),
      bs.filter (fun b => !(normalizeCodeS b.code == normalizeCode cr))) := by
    unfold resetCode
    rw [hcr, hany]
    rfl
  refine ⟨by rw [hreset], ?_, ?_⟩
  · have hnone : (bs.filter
        (fun b => !(normalizeCodeS b.code == normalizeCode cr))).find?
        (fun b => normalizeCodeS b.code == normalizeCodeS c2) = none := by
      apply List.find?_eq_none.mpr
      intro x hx
      have hxf := (List.mem_filter.mp hx).2
      simp only [Bool.not_eq_eq_eq_not, Bool.not_true, beq_eq_false_iff_ne,
        ne_eq] at hxf
      rw [hnr] at hxf
      simp [hn2, hxf]
    rw [hreset]
    rw [authorize_code_eval codes
      (bs.filter (fun b => !(normalizeCodeS b.code == normalizeCode cr)))
      f c2 i k n hf hc2, hvalid, hnone]
    rfl
  · intro tok fp cod i2 k2 n2 m hb
    exact authorize_keeps_bound codes bs tok fp cod i2 k2 n2 m hb

/-- Witness for C5: registry `["ABC123"]`, a binding for "ABC123" held by
fingerprint "F1"; resetting with "abc123" succeeds and "aBc 123" then
binds first-time to fingerprint "F2". -/
theorem C5_reset_round_trip_witness :
    (resetCode [⟨"id1", "ABC123", "F1", "tok1", "t0"⟩] (.str "abc123")).1 =
      (200, [("ok", .jbool true)]) ∧
    authorize ["ABC123"]
        (resetCode [⟨"id1", "ABC123", "F1", "tok1", "t0"⟩] (.str "abc123")).2
        .undef (.str "F2") (.str "aBc 123") "i2" "k2" "n2" =
      (.boundFirstTime "k2",
        (resetCode [⟨"id1", "ABC123", "F1", "tok1", "t0"⟩] (.str "abc123")).2 ++
          [⟨"i2", "aBc 123", "F2", "k2", "n2"⟩]) := by
  have h := C5_reset_round_trip ["ABC123"] [⟨"id1", "ABC123", "F1", "tok1", "t0"⟩]
    "ABC123" (.str "abc123") "aBc 123" "F2" "i2" "k2" "n2"
    (by decide) (by decide) (by decide) (by decide) (by decide) (by decide)
    (by decide)
  exact ⟨h.1, h.2.1⟩

/-- Claim C6 (behavior of the code at the failing input): when reading or
parsing the persisted binding store fails, `loadBindings` silently
returns the empty store, and a subsequent valid redemption proceeds as a
first-time bind whose persisted write-back contains only the new binding
— the service does not fail the request, and prior bindings are lost. -/
theorem C6_corrupt_store_proceeds_as_empty :
    loadBindings none = [] ∧
    authorize ["ABC123"] (loadBindings none) .undef (.str "F1")
        (.str "ABC123") "id2" "tok2" "t1" =
      (.boundFirstTime "tok2", [⟨"id2", "ABC123", "F1", "tok2", "t1"⟩]) := by
  exact ⟨rfl, by decide⟩

/-- Claim C8 counterexample: resetting a bound code succeeds, but the
success response is exactly status 200 with body `{ ok: true }` — the
body holds no numeric field at all, so the operation does not report a
count of removed bindings. -/
theorem C8_reset_response_has_no_count :
    resetCode [⟨"id1", "ABC123", "F1", "tok1", "t0"⟩] (.str "ABC123") =
      ((200, [("ok", JsonVal.jbool true)]), []) ∧
    (resetCode [⟨"id1", "ABC123", "F1", "tok1", "t0"⟩]
        (.str "ABC123")).1.2.any (fun kv =>
          match kv.2 with
          | JsonVal.jnum _ => true
          | _ => false) = false := by
  exact ⟨by decide, by decide⟩

/-- Claim C8 as amended: for a truthy reset code, if at least one binding
matches the normalized code the reset answers 200 `{ ok: true }` (with no
count) and removes exactly the matching bindings; if none matches it
answers 404 not-found and leaves the store unchanged. -/
theorem C8_reset_response (bs : List Binding) (cv : JSVal)
    (hc : truthy cv = true) :
    ((∃ b ∈ bs, normalizeCodeS b.code = normalizeCode cv) →
      resetCode bs cv = ((200, [("ok", .jbool true)]),
        bs.filter (fun b => !(normalizeCodeS b.code == normalizeCode cv)))) ∧
    ((∀ b ∈ bs, normalizeCodeS b.code ≠ normalizeCode cv) →
      resetCode bs cv =
        ((404, [("ok", .jbool false), ("error", .jstr "Code not found")]),
          bs)) := by
  constructor
  · intro hmatch
    have hany : bs.any (fun b => normalizeCodeS b.code == normalizeCode cv) =
        true := by
      rcases hmatch with ⟨b, hbm, hbe⟩
      exact List.any_eq_true.mpr ⟨b, hbm, by simp [hbe]⟩
    unfold resetCode
    rw [hc, hany]
    rfl
  · intro hnone
    have hany : bs.any (fun b => normalizeCodeS b.code == normalizeCode cv) =
        false := by
      rw [Bool.eq_false_iff]
      intro hx
      rcases List.any_eq_true.mp hx with ⟨b, hbm, hbe⟩
      exact hnone b hbm (by simpa using hbe)
    unfold resetCode
    rw [hc, hany]
    rfl

/-- Witness for C8 (amended): one matching binding is removed with a
200 `{ok: true}` answer; with an unbound code the store is unchanged and
the answer is the 404 not-found failure. -/
theorem C8_reset_response_witness :
    resetCode [⟨"id1", "ABC123", "F1", "tok1", "t0"⟩] (.str "abc 123") =
      ((200, [("ok", .jbool true)]), []) ∧
    resetCode [⟨"id1", "ABC123", "F1", "tok1", "t0"⟩] (.str "XYZ") =
      ((404, [("ok", .jbool false), ("error", .jstr "Code not found")]),
        [⟨"id1", "ABC123", "F1", "tok1", "t0"⟩]) := by
  constructor
  · have h := (C8_reset_response [⟨"id1", "ABC123", "F1", "tok1", "t0"⟩]
      (.str "abc 123") (by decide)).1 (by decide)
    rw [h]
    rfl
  · exact (C8_reset_response [⟨"id1", "ABC123", "F1", "tok1", "t0"⟩]
      (.str "XYZ") (by decide)).2 (by decide)

end FilInfo
